/-
Verification of the LS-8 virtual machine (`ls8/cpu.py`).

The embedding models the Python source faithfully:
* Python lists become `List Int`; Python indexing (including the negative-index
  wrap-around `l[-1]`) is modelled by `pyGet` / `pySet`, which fail (`IndexError`)
  exactly when Python raises `IndexError`.
* Register values are unbounded `Int`, exactly as CPython integers: the source
  performs no masking on arithmetic.
* `sys.exit(code)` after printing a diagnostic to standard output becomes the
  error value `VMErr.exit code (some msg)`; a bare `sys.exit(code)` becomes
  `VMErr.exit code none`; an uncaught Python exception (which prints a traceback
  to standard *error* and makes the interpreter exit with status 1) becomes
  `VMErr.exc e` — the two are deliberately distinct constructors, because the
  spec distinguishes "prints a diagnostic to standard output and exits 1"
  from a crash.
* The infinite `while True` loop of `CPU.run` is modelled by the fuel-indexed
  iteration `run`.
-/
import Mathlib

namespace LS8

/-- Uncaught Python exception kinds relevant to `cpu.py`. -/
inductive PyExc where
  | keyError : PyExc
  | indexError : PyExc
  | typeError : PyExc
  deriving DecidableEq, Repr

/-- How a VM step can terminate abnormally: `exit code diag` models
`sys.exit(code)` preceded by printing `diag` to standard output (`none` when
nothing is printed); `exc e` models an uncaught Python exception `e`. -/
inductive VMErr where
  | exit (code : Nat) (diag : Option String) : VMErr
  | exc (e : PyExc) : VMErr
  deriving DecidableEq, Repr

/-- Python list read `l[i]`: a nonnegative index must be `< len`, a negative
index `i` is valid when `-len ≤ i` and addresses cell `i + len`. -/
def pyGet (l : List Int) (i : Int) : Option Int :=
  if 0 ≤ i then
    (if i < (l.length : Int) then l.get? i.toNat else none)
  else
    (if -(l.length : Int) ≤ i then l.get? (i + l.length).toNat else none)

/-- Python list write `l[i] = v`, with the same index discipline as `pyGet`. -/
def pySet (l : List Int) (i : Int) (v : Int) : Option (List Int) :=
  if 0 ≤ i then
    (if i < (l.length : Int) then some (l.set i.toNat v) else none)
  else
    (if -(l.length : Int) ≤ i then some (l.set (i + l.length).toNat v) else none)

/-- Lift of `pyGet` into the `Except` monad: a failed lookup is Python's `IndexError`. -/
def getE (l : List Int) (i : Int) : Except VMErr Int :=
  match pyGet l i with
  | some v => .ok v
  | none => .error (.exc .indexError)

/-- Lift of `pySet` into the `Except` monad: a failed write is Python's `IndexError`. -/
def setE (l : List Int) (i : Int) (v : Int) : Except VMErr (List Int) :=
  match pySet l i v with
  | some l2 => .ok l2
  | none => .error (.exc .indexError)

/-- Python `x >> n` on an `int` (arithmetic shift = floor division). -/
def pyShr (x : Int) (n : Nat) : Int := Int.fdiv x (2 ^ n)

/-- Python `x & 1` on an `int` (two's complement, so this is `x mod 2` with
floor semantics). -/
def pyAnd1 (x : Int) : Int := Int.emod x 2

-- Instruction definitions (the binary literals of cpu.py, as integers)
def HLT : Int := 0x01
def LDI : Int := 0x82
def PRN : Int := 0x47
def MUL : Int := 0xA2
def ADD : Int := 0xA0
def ADDI : Int := 0xA5
def SUB : Int := 0xA1
def PUSH : Int := 0x45
def POP : Int := 0x46
def CALL : Int := 0x50
def RET : Int := 0x11
def ST : Int := 0x84
def CMP : Int := 0xA7
def JMP : Int := 0x54
def JEQ : Int := 0x55
def JNE : Int := 0x56

/-- Stack-pointer register number (`SP = 7` in the source). -/
def SP : Int := 7

/-- The mutable interpreter state of class `CPU`: `ram` (256 cells), `reg`
(8 cells, `reg[7]` the stack pointer, initialised to `0xF4`), `pc`, `fl`. -/
structure CPUState where
  ram : List Int
  reg : List Int
  pc : Int
  fl : Int
  deriving DecidableEq, Repr

/-- Constructor `CPU.__init__`: zero-filled ram and registers, `reg[SP] = 0xF4`,
`pc = 0`, `fl = 0`. -/
def initState : CPUState :=
  { ram := List.replicate 256 0
    reg := (List.replicate 8 0).set 7 0xf4
    pc := 0
    fl := 0 }

/-- Method `CPU.ram_read(address)`. -/
def ram_read (s : CPUState) (address : Int) : Except VMErr Int :=
  getE s.ram address

/-- Method `CPU.ram_write(value, address)`: `self.ram[address] = value`. -/
def ram_write (value address : Int) (s : CPUState) : Except VMErr CPUState := do
  let ram1 ← setE s.ram address value
  .ok { s with ram := ram1 }

/-- A handler takes `(operand_a, operand_b)` and the state. -/
def Handler := Int → Int → CPUState → Except VMErr CPUState

/-- Handler `handle_ldi`: `reg[reg_num] = immediate`. -/
def handle_ldi (reg_num immediate : Int) (s : CPUState) : Except VMErr CPUState := do
  let reg1 ← setE s.reg reg_num immediate
  .ok { s with reg := reg1 }

/-- Handler `handle_prn`: prints `reg[reg_num]`; the read can raise, the printing
itself is an external side effect not tracked by the model. -/
def handle_prn (reg_num _operand_b : Int) (s : CPUState) : Except VMErr CPUState := do
  let _ ← getE s.reg reg_num
  .ok s

/-- Handler `handle_hlt`: `sys.exit(0)` with no diagnostic. -/
def handle_hlt (_operand_a _operand_b : Int) (_s : CPUState) : Except VMErr CPUState :=
  .error (.exit 0 none)

/-- Handler `handle_push`: decrement `reg[SP]`, then read `reg[reg_num]` (note: after
the decrement), then `ram[reg[SP]] = value`. -/
def handle_push (reg_num _operand_b : Int) (s : CPUState) : Except VMErr CPUState := do
  let sp0 ← getE s.reg SP
  let reg1 ← setE s.reg SP (sp0 - 1)
  let value ← getE reg1 reg_num
  let top_of_stack_addr ← getE reg1 SP
  let ram1 ← setE s.ram top_of_stack_addr value
  .ok { s with reg := reg1, ram := ram1 }

/-- Handler `handle_pop`: read `ram[reg[SP]]` into `reg[reg_num]`, then increment
`reg[SP]` (note: the increment reads `reg[SP]` after the register write). -/
def handle_pop (reg_num _operand_b : Int) (s : CPUState) : Except VMErr CPUState := do
  let top_of_stack_addr ← getE s.reg SP
  let value ← getE s.ram top_of_stack_addr
  let reg1 ← setE s.reg reg_num value
  let sp1 ← getE reg1 SP
  let reg2 ← setE reg1 SP (sp1 + 1)
  .ok { s with reg := reg2 }

/-- Handler `handle_call`: push `pc + 2`, then `pc = reg[subroutine]` (the register is
read after the SP decrement). -/
def handle_call (subroutine _operand_b : Int) (s : CPUState) : Except VMErr CPUState := do
  let ret_addr := s.pc + 2
  let sp0 ← getE s.reg SP
  let reg1 ← setE s.reg SP (sp0 - 1)
  let top ← getE reg1 SP
  let ram1 ← setE s.ram top ret_addr
  let target ← getE reg1 subroutine
  .ok { s with reg := reg1, ram := ram1, pc := target }

/-- Handler `handle_ret`: pop the return address into `pc`. -/
def handle_ret (_operand_a _operand_b : Int) (s : CPUState) : Except VMErr CPUState := do
  let sp0 ← getE s.reg SP
  let ret_addr ← getE s.ram sp0
  let reg1 ← setE s.reg SP (sp0 + 1)
  .ok { s with reg := reg1, pc := ret_addr }

/-- Handler `handle_st`: `ram[reg[reg_a]] = reg[reg_b]`, via `ram_write`. -/
def handle_st (reg_a reg_b : Int) (s : CPUState) : Except VMErr CPUState := do
  let value ← getE s.reg reg_b
  let address ← getE s.reg reg_a
  ram_write value address s

/-- Handler `handle_jmp`: `pc = reg[reg_num]`. -/
def handle_jmp (reg_num _operand_b : Int) (s : CPUState) : Except VMErr CPUState := do
  let target ← getE s.reg reg_num
  .ok { s with pc := target }

/-- Handler `handle_jeq`: if `fl & 1 == 1` jump, else `pc += 2`. -/
def handle_jeq (reg_num operand_b : Int) (s : CPUState) : Except VMErr CPUState :=
  if pyAnd1 s.fl = 1 then handle_jmp reg_num operand_b s
  else .ok { s with pc := s.pc + 2 }

/-- Handler `handle_jne`: if `fl & 1 == 0` jump, else `pc += 2`. -/
def handle_jne (reg_num operand_b : Int) (s : CPUState) : Except VMErr CPUState :=
  if pyAnd1 s.fl = 0 then handle_jmp reg_num operand_b s
  else .ok { s with pc := s.pc + 2 }

/-- Handler `handle_add`: `reg[reg_a] += reg[reg_b]` — unbounded, no masking. -/
def handle_add (reg_a reg_b : Int) (s : CPUState) : Except VMErr CPUState := do
  let va ← getE s.reg reg_a
  let vb ← getE s.reg reg_b
  let reg1 ← setE s.reg reg_a (va + vb)
  .ok { s with reg := reg1 }

/-- Handler `handle_sub`: `reg[reg_a] -= reg[reg_b]` — unbounded, may go negative. -/
def handle_sub (reg_a reg_b : Int) (s : CPUState) : Except VMErr CPUState := do
  let va ← getE s.reg reg_a
  let vb ← getE s.reg reg_b
  let reg1 ← setE s.reg reg_a (va - vb)
  .ok { s with reg := reg1 }

/-- Handler `handle_mul`: `reg[reg_a] *= reg[reg_b]` — unbounded, no masking. -/
def handle_mul (reg_a reg_b : Int) (s : CPUState) : Except VMErr CPUState := do
  let va ← getE s.reg reg_a
  let vb ← getE s.reg reg_b
  let reg1 ← setE s.reg reg_a (va * vb)
  .ok { s with reg := reg1 }

/-- Handler `handle_cmp`: set `fl` to `1` (Equal), `4` (Less-Than) or `2`
(Greater-Than); the final `else` raises `TypeError` in the source. -/
def handle_cmp (reg_a reg_b : Int) (s : CPUState) : Except VMErr CPUState := do
  let valueA ← getE s.reg reg_a
  let valueB ← getE s.reg reg_b
  if valueA = valueB then .ok { s with fl := 1 }
  else if valueA < valueB then .ok { s with fl := 4 }
  else if valueB < valueA then .ok { s with fl := 2 }
  else .error (.exc .typeError)

/-- Handler `handle_addi`: `reg[reg_num] += immediate` — unbounded, no masking. -/
def handle_addi (reg_num immediate : Int) (s : CPUState) : Except VMErr CPUState := do
  let va ← getE s.reg reg_num
  let reg1 ← setE s.reg reg_num (va + immediate)
  .ok { s with reg := reg1 }

/-- The general branch table `self.branchtable` (a Python dict keyed on the
opcode byte): `none` models a `KeyError` on lookup. -/
def branchtable (op : Int) : Option Handler :=
  if op = HLT then some handle_hlt
  else if op = LDI then some handle_ldi
  else if op = PRN then some handle_prn
  else if op = PUSH then some handle_push
  else if op = POP then some handle_pop
  else if op = CALL then some handle_call
  else if op = RET then some handle_ret
  else if op = ST then some handle_st
  else if op = JMP then some handle_jmp
  else if op = JEQ then some handle_jeq
  else if op = JNE then some handle_jne
  else none

/-- The ALU branch table `self.alu_branchtable`. -/
def alu_branchtable (op : Int) : Option Handler :=
  if op = ADD then some handle_add
  else if op = SUB then some handle_sub
  else if op = MUL then some handle_mul
  else if op = CMP then some handle_cmp
  else if op = ADDI then some handle_addi
  else none

/-- Method `CPU.alu`: look the opcode up in the ALU table; a `KeyError` is caught and
turned into a printed diagnostic plus `sys.exit(1)`. -/
def alu (op operand_a operand_b : Int) (s : CPUState) : Except VMErr CPUState :=
  match alu_branchtable op with
  | some h => h operand_a operand_b s
  | none => .error (.exit 1 (some "Unsupported ALU operation"))

/-- The dispatch phase of the loop body of `CPU.run` (lines `if ir >> 5 & 1
== 1: self.alu(...)` / `else: self.branchtable[ir](...)`): route to the ALU
iff bit 5 of `ir` is set; a miss in the *general* table is an uncaught
`KeyError`. -/
def dispatch (ir operand_a operand_b : Int) (s : CPUState) : Except VMErr CPUState :=
  if pyAnd1 (pyShr ir 5) = 1 then alu ir operand_a operand_b s
  else
    match branchtable ir with
    | some h => h operand_a operand_b s
    | none => .error (.exc .keyError)

/-- The pc-advance phase of the loop body of `CPU.run` (`if ir >> 4 & 1 == 0:
self.pc += (ir >> 6) + 1`). -/
def advance (ir : Int) (s1 : CPUState) : Except VMErr CPUState :=
  if pyAnd1 (pyShr ir 4) = 0 then
    .ok { s1 with pc := s1.pc + (pyShr ir 6 + 1) }
  else
    .ok s1

/-- One iteration of the `while True` loop of `CPU.run`: fetch `ir` and both
operand bytes unconditionally, dispatch, then advance `pc` when the
instruction does not set it itself. -/
def step (s : CPUState) : Except VMErr CPUState := do
  let ir ← ram_read s s.pc
  let operand_a ← ram_read s (s.pc + 1)
  let operand_b ← ram_read s (s.pc + 2)
  let s1 ← dispatch ir operand_a operand_b s
  advance ir s1

/-- Fuel-indexed iteration of `CPU.run`'s infinite loop. -/
def run : Nat → CPUState → Except VMErr CPUState
  | 0, s => .ok s
  | n + 1, s => do run n (← step s)

/-! ## The program loader (`CPU.load`)

Lines of the program file are modelled as `List Char`.  The CLI-argument and
file-opening glue of `CPU.load` is external I/O and is not modelled; the
per-line parsing loop and its error handling are. -/

/-- Accumulator loop for `pySplit`. -/
def splitWsAux : List Char → List Char → List (List Char)
  | [], [] => []
  | [], cur => [cur.reverse]
  | c :: rest, cur =>
    if c.isWhitespace then
      (if cur = [] then splitWsAux rest [] else cur.reverse :: splitWsAux rest [])
    else splitWsAux rest (c :: cur)

/-- Python `line.split()` (no separator argument): split on runs of whitespace,
discarding empty pieces.  `line.strip()` followed by `split()` equals plain
`split()`, so the source's `strip` needs no separate model. -/
def pySplit (line : List Char) : List (List Char) := splitWsAux line []

/-- CPython `int(tok, 2)`: optional sign, optional `0b`/`0B` marker (with one
underscore allowed right after it), then binary digits with single underscores
allowed between digits; anything else raises `ValueError`, modelled as `none`. -/
def intBase2? (cs : List Char) : Option Int :=
  let sgn : Int := match cs with
    | '-' :: _ => -1
    | _ => 1
  let cs1 := match cs with
    | '+' :: rest => rest
    | '-' :: rest => rest
    | rest => rest
  let marked : Bool := match cs1 with
    | '0' :: 'b' :: _ => true
    | '0' :: 'B' :: _ => true
    | _ => false
  let cs2 := match cs1 with
    | '0' :: 'b' :: rest => rest
    | '0' :: 'B' :: rest => rest
    | rest => rest
  let cs3 := match marked, cs2 with
    | true, '_' :: rest => rest
    | _, rest => rest
  if cs3 = [] then none
  else if cs3.head? = some '_' then none
  else if cs3.getLast? = some '_' then none
  else if (cs3.zip cs3.tail).any (fun p => p.1 == '_' && p.2 == '_') then none
  else if cs3.all (fun c => c == '0' || c == '1' || c == '_') then
    some (sgn * cs3.foldl
      (fun acc c => if c == '_' then acc else 2 * acc + (if c == '1' then 1 else 0)) 0)
  else none

/-- The per-line loop of `CPU.load`: skip blank lines and lines whose first
token starts with `#`; parse the first token with `int(tok, 2)`, printing
`Invalid Instruction: tok` and exiting 1 if that raises `ValueError`;
otherwise `ram_write` the value at the running address and advance it. -/
def loadLines : List (List Char) → Int → CPUState → Except VMErr (Int × CPUState)
  | [], address, s => .ok (address, s)
  | line :: rest, address, s =>
    match pySplit line with
    | [] => loadLines rest address s
    | tok :: _ =>
      if tok.head? = some '#' then loadLines rest address s
      else
        match intBase2? tok with
        | none => .error (.exit 1 (some ("Invalid Instruction: " ++ String.mk tok)))
        | some v => do
            let s1 ← ram_write v address s
            loadLines rest (address + 1) s1

/-- Body of `CPU.load` after the file has been read into lines: run the
per-line loop from address 0, then reject an empty (zero-instruction)
program with a diagnostic and exit status 1. -/
def load (lines : List (List Char)) (s : CPUState) : Except VMErr CPUState := do
  let (address, s1) ← loadLines lines 0 s
  if address = 0 then .error (.exit 1 (some "Provided program was empty."))
  else .ok s1

/-! ## Concrete states used to instantiate the theorems -/

/-- Byte image of the demo program `LDI R0,8 / LDI R1,9 / MUL R0,R1 /
PRN R0 / HLT`, padded to 256 cells. -/
def demoRam : List Int :=
  [0x82, 0, 8, 0x82, 1, 9, 0xA2, 0, 1, 0x47, 0, 0x01] ++ List.replicate 244 0

/-- The freshly-loaded demo machine. -/
def demoState : CPUState := { initState with ram := demoRam }

/-- A state whose registers 0 and 1 both hold 200, for exercising ADD. -/
def addState : CPUState := { initState with reg := [200, 200, 0, 0, 0, 0, 0, 0xf4] }

/-- Result of ADD R0,R1 on `addState`: register 0 holds 400, unmasked. -/
def addResult : CPUState := { addState with reg := [400, 200, 0, 0, 0, 0, 0, 0xf4] }

/-- A state whose ram holds the opcode byte `0xA3` (bit 5 set, no ALU
handler registered) at address 0. -/
def aluMissState : CPUState :=
  { initState with ram := (List.replicate 256 0).set 0 0xA3 }

/-- Result of `PUSH R7` then `POP R0` from the initial state: register 0
receives 243 (the decremented stack pointer), not the original 244. -/
def pushPop7Result : CPUState :=
  { initState with
      reg := [243, 0, 0, 0, 0, 0, 0, 244]
      ram := (List.replicate 256 0).set 243 243 }

/-- A state with distinct register contents for the push/pop round-trip. -/
def rtState : CPUState := { initState with reg := [9, 0, 0, 0, 0, 0, 0, 244] }

/-- Result of `PUSH R0` then `POP R1` on `rtState`. -/
def rtResult : CPUState :=
  { rtState with
      reg := [9, 9, 0, 0, 0, 0, 0, 244]
      ram := (List.replicate 256 0).set 243 9 }

/-- Result of `CALL R7` from the initial state: the pc becomes 243 (the
decremented stack pointer), not the 244 register 7 held before the call. -/
def call7Result : CPUState :=
  { initState with
      reg := (List.replicate 8 0).set 7 243
      ram := (List.replicate 256 0).set 243 2
      pc := 243 }

/-- A state ready to `CALL R3` from pc 10 with subroutine address 9. -/
def callState : CPUState :=
  { initState with reg := [0, 0, 0, 9, 0, 0, 0, 244], pc := 10 }

/-- State after `CALL R3` on `callState`. -/
def callResult : CPUState :=
  { callState with
      reg := [0, 0, 0, 9, 0, 0, 0, 243]
      ram := (List.replicate 256 0).set 243 12
      pc := 9 }

/-- State after `RET` on `callResult`. -/
def retResult : CPUState := { callResult with reg := [0, 0, 0, 9, 0, 0, 0, 244], pc := 12 }

/-- A state about to execute `JEQ R2` (register 2 holds the jump target 30). -/
def jeqState : CPUState :=
  { initState with
      ram := [0x55, 2, 0] ++ List.replicate 253 0
      reg := [0, 0, 30, 0, 0, 0, 0, 0xf4] }

/-- The same machine about to execute `JNE R2` instead. -/
def jneState : CPUState := { jeqState with ram := [0x56, 2, 0] ++ List.replicate 253 0 }

/-- A state whose stack pointer is 0, about to push. -/
def spZeroState : CPUState := { initState with reg := [5, 0, 0, 0, 0, 0, 0, 0] }

/-- Result of PUSH R0 on `spZeroState`: the stack pointer becomes -1 and the
write lands in cell 255 through Python's negative indexing. -/
def spZeroResult : CPUState :=
  { spZeroState with
      reg := [5, 0, 0, 0, 0, 0, 0, -1]
      ram := (List.replicate 256 0).set 255 5 }

/-- A state whose stack pointer has already walked past the top of memory. -/
def spOverState : CPUState := { initState with reg := [0, 0, 0, 0, 0, 0, 0, 256] }

/-- Ram image after loading the single line `1010`: cell 0 holds 10. -/
def loaded1010 : CPUState := { initState with ram := (List.replicate 256 0).set 0 10 }

/-- State of `demoState` after one step (the first LDI executed). -/
def demoAfter1 : CPUState :=
  { demoState with reg := [8, 0, 0, 0, 0, 0, 0, 0xf4], pc := 3 }

/-- State of `demoState` after four steps (both LDIs, the MUL and the PRN). -/
def demoAfter4 : CPUState :=
  { demoState with reg := [72, 9, 0, 0, 0, 0, 0, 0xf4], pc := 11 }

/-- A state with registers 0 and 1 holding 3 and 5, for exercising CMP. -/
def cmpState : CPUState := { initState with reg := [3, 5, 0, 0, 0, 0, 0, 0xf4] }

/-- Result of CMP R0,R1 on `cmpState`: Less-Than (bit 2) set. -/
def cmpLtResult : CPUState := { cmpState with fl := 4 }

/-- Result of CMP R0,R0 on `cmpState`: Equal (bit 0) set. -/
def cmpEqResult : CPUState := { cmpState with fl := 1 }

/-- Discriminator: did the computation end by printing a diagnostic to
standard output and exiting with status 1? -/
def isDiagExit1 : Except VMErr CPUState → Bool
  | .error (.exit 1 (some _)) => true
  | _ => false

/-- Discriminator: did the computation end abnormally at all? -/
def isError : Except VMErr CPUState → Bool
  | .error _ => true
  | .ok _ => false

end LS8

deriving instance DecidableEq for Except

namespace LS8

set_option maxRecDepth 40000

/-! ## General lemmas about the embedding -/

/-- Inversion for a successful `Except` bind. -/
theorem bindOk {α β : Type} {x : Except VMErr α} {f : α → Except VMErr β} {b : β} :
    x >>= f = .ok b ↔ ∃ a, x = .ok a ∧ f a = .ok b := by
  cases x <;> simp [bind, Except.bind]

/-- Reading a nonnegative in-range index is a plain list lookup. -/
theorem pyGet_pos {l : List Int} {i : Int} (h0 : 0 ≤ i) (h1 : i < (l.length : Int)) :
    pyGet l i = l.get? i.toNat := by
  unfold pyGet; rw [if_pos h0, if_pos h1]

/-- Writing a nonnegative in-range index is a plain list update. -/
theorem pySet_pos {l : List Int} {i : Int} (v : Int) (h0 : 0 ≤ i) (h1 : i < (l.length : Int)) :
    pySet l i v = some (l.set i.toNat v) := by
  unfold pySet; rw [if_pos h0, if_pos h1]

/-- Writing a negative in-range index wraps to cell `i + len`, as in Python. -/
theorem pySet_neg {l : List Int} {i : Int} (v : Int) (h0 : i < 0) (h1 : -(l.length : Int) ≤ i) :
    pySet l i v = some (l.set (i + l.length).toNat v) := by
  unfold pySet; rw [if_neg (by omega), if_pos h1]

/-- A readable cell is writable, and reading it back yields the new value. -/
theorem pySet_of_pyGet {l : List Int} {i v : Int} (w : Int) (h : pyGet l i = some v) :
    ∃ l2, pySet l i w = some l2 ∧ pyGet l2 i = some w ∧ l2.length = l.length := by
  unfold pyGet at h
  by_cases h0 : 0 ≤ i
  · rw [if_pos h0] at h
    by_cases h1 : i < (l.length : Int)
    · rw [if_pos h1] at h
      refine ⟨l.set i.toNat w, pySet_pos w h0 h1, ?_, by simp⟩
      rw [pyGet_pos h0 (by simp; omega)]
      exact List.get?_set_eq_of_lt _ (by omega)
    · rw [if_neg h1] at h; cases h
  · rw [if_neg h0] at h
    by_cases h1 : -(l.length : Int) ≤ i
    · rw [if_pos h1] at h
      have hneg : i < 0 := by omega
      refine ⟨l.set (i + l.length).toNat w, pySet_neg w hneg h1, ?_, by simp⟩
      unfold pyGet
      rw [if_neg h0, if_pos (by simp; omega)]
      rw [List.length_set]
      exact List.get?_set_eq_of_lt _ (by omega)
    · rw [if_neg h1] at h; cases h

/-- Inlined form of `CPU.alu` as a cascade over the five ALU opcodes. -/
theorem alu_eq (op a b : Int) (s : CPUState) : alu op a b s =
    if op = ADD then handle_add a b s
    else if op = SUB then handle_sub a b s
    else if op = MUL then handle_mul a b s
    else if op = CMP then handle_cmp a b s
    else if op = ADDI then handle_addi a b s
    else .error (.exit 1 (some "Unsupported ALU operation")) := by
  unfold alu alu_branchtable
  split_ifs <;> rfl

/-! Per-handler inversion lemmas: what a successful handler run preserves. -/

theorem handle_ldi_ok {a b : Int} {s t : CPUState} (h : handle_ldi a b s = .ok t) :
    t.pc = s.pc ∧ t.fl = s.fl ∧ t.ram = s.ram := by
  unfold handle_ldi at h
  simp only [bindOk] at h
  obtain ⟨r1, -, h⟩ := h
  injection h with h; subst h; exact ⟨rfl, rfl, rfl⟩

theorem handle_prn_ok {a b : Int} {s t : CPUState} (h : handle_prn a b s = .ok t) :
    t = s := by
  unfold handle_prn at h
  simp only [bindOk] at h
  obtain ⟨v, -, h⟩ := h
  injection h with h; subst h; rfl

theorem handle_hlt_ok {a b : Int} {s t : CPUState} (h : handle_hlt a b s = .ok t) :
    False := by
  cases h

theorem handle_push_ok {a b : Int} {s t : CPUState} (h : handle_push a b s = .ok t) :
    t.pc = s.pc ∧ t.fl = s.fl := by
  unfold handle_push at h
  simp only [bindOk] at h
  obtain ⟨sp0, -, reg1, -, v, -, tos, -, ram1, -, h⟩ := h
  injection h with h; subst h; exact ⟨rfl, rfl⟩

theorem handle_pop_ok {a b : Int} {s t : CPUState} (h : handle_pop a b s = .ok t) :
    t.pc = s.pc ∧ t.fl = s.fl ∧ t.ram = s.ram := by
  unfold handle_pop at h
  simp only [bindOk] at h
  obtain ⟨tos, -, v, -, reg1, -, sp1, -, reg2, -, h⟩ := h
  injection h with h; subst h; exact ⟨rfl, rfl, rfl⟩

theorem handle_call_ok {a b : Int} {s t : CPUState} (h : handle_call a b s = .ok t) :
    t.fl = s.fl := by
  unfold handle_call at h
  simp only [bindOk] at h
  obtain ⟨sp0, -, reg1, -, top, -, ram1, -, tgt, -, h⟩ := h
  injection h with h; subst h; rfl

theorem handle_ret_ok {a b : Int} {s t : CPUState} (h : handle_ret a b s = .ok t) :
    t.fl = s.fl ∧ t.ram = s.ram := by
  unfold handle_ret at h
  simp only [bindOk] at h
  obtain ⟨sp0, -, ret, -, reg1, -, h⟩ := h
  injection h with h; subst h; exact ⟨rfl, rfl⟩

theorem handle_st_ok {a b : Int} {s t : CPUState} (h : handle_st a b s = .ok t) :
    t.pc = s.pc ∧ t.fl = s.fl ∧ t.reg = s.reg := by
  unfold handle_st ram_write at h
  simp only [bindOk] at h
  obtain ⟨v, -, addr, -, ram1, -, h⟩ := h
  injection h with h; subst h; exact ⟨rfl, rfl, rfl⟩

theorem handle_jmp_ok {a b : Int} {s t : CPUState} (h : handle_jmp a b s = .ok t) :
    t.fl = s.fl ∧ t.reg = s.reg ∧ t.ram = s.ram := by
  unfold handle_jmp at h
  simp only [bindOk] at h
  obtain ⟨tgt, -, h⟩ := h
  injection h with h; subst h; exact ⟨rfl, rfl, rfl⟩

theorem handle_jeq_ok {a b : Int} {s t : CPUState} (h : handle_jeq a b s = .ok t) :
    t.fl = s.fl ∧ t.reg = s.reg ∧ t.ram = s.ram := by
  unfold handle_jeq at h
  split at h
  · exact handle_jmp_ok h
  · injection h with h; subst h; exact ⟨rfl, rfl, rfl⟩

theorem handle_jne_ok {a b : Int} {s t : CPUState} (h : handle_jne a b s = .ok t) :
    t.fl = s.fl ∧ t.reg = s.reg ∧ t.ram = s.ram := by
  unfold handle_jne at h
  split at h
  · exact handle_jmp_ok h
  · injection h with h; subst h; exact ⟨rfl, rfl, rfl⟩

theorem handle_add_ok {a b : Int} {s t : CPUState} (h : handle_add a b s = .ok t) :
    t.pc = s.pc ∧ t.fl = s.fl ∧ t.ram = s.ram := by
  unfold handle_add at h
  simp only [bindOk] at h
  obtain ⟨va, -, vb, -, reg1, -, h⟩ := h
  injection h with h; subst h; exact ⟨rfl, rfl, rfl⟩

theorem handle_sub_ok {a b : Int} {s t : CPUState} (h : handle_sub a b s = .ok t) :
    t.pc = s.pc ∧ t.fl = s.fl ∧ t.ram = s.ram := by
  unfold handle_sub at h
  simp only [bindOk] at h
  obtain ⟨va, -, vb, -, reg1, -, h⟩ := h
  injection h with h; subst h; exact ⟨rfl, rfl, rfl⟩

theorem handle_mul_ok {a b : Int} {s t : CPUState} (h : handle_mul a b s = .ok t) :
    t.pc = s.pc ∧ t.fl = s.fl ∧ t.ram = s.ram := by
  unfold handle_mul at h
  simp only [bindOk] at h
  obtain ⟨va, -, vb, -, reg1, -, h⟩ := h
  injection h with h; subst h; exact ⟨rfl, rfl, rfl⟩

theorem handle_addi_ok {a b : Int} {s t : CPUState} (h : handle_addi a b s = .ok t) :
    t.pc = s.pc ∧ t.fl = s.fl ∧ t.ram = s.ram := by
  unfold handle_addi at h
  simp only [bindOk] at h
  obtain ⟨va, -, reg1, -, h⟩ := h
  injection h with h; subst h; exact ⟨rfl, rfl, rfl⟩

theorem handle_cmp_ok {a b : Int} {s t : CPUState} (h : handle_cmp a b s = .ok t) :
    t.pc = s.pc ∧ (t.fl = 1 ∨ t.fl = 2 ∨ t.fl = 4) ∧ t.reg = s.reg ∧ t.ram = s.ram := by
  unfold handle_cmp at h
  simp only [bindOk] at h
  obtain ⟨va, -, vb, -, h⟩ := h
  split_ifs at h <;>
    (injection h with h; subst h; refine ⟨rfl, ?_, rfl, rfl⟩; simp)

/-! Dispatch-level lemmas. -/

/-- What a successful ALU dispatch preserves: the pc always; the flags unless
the opcode is CMP, which sets exactly one of 1, 2, 4. -/
theorem alu_ok_props {ir a b : Int} {s t : CPUState} (h : alu ir a b s = .ok t) :
    t.pc = s.pc ∧ (t.fl = s.fl ∨ t.fl = 1 ∨ t.fl = 2 ∨ t.fl = 4) ∧
    (ir ≠ CMP → t.fl = s.fl) := by
  rw [alu_eq] at h
  split_ifs at h
  · exact ⟨(handle_add_ok h).1, Or.inl (handle_add_ok h).2.1, fun _ => (handle_add_ok h).2.1⟩
  · exact ⟨(handle_sub_ok h).1, Or.inl (handle_sub_ok h).2.1, fun _ => (handle_sub_ok h).2.1⟩
  · exact ⟨(handle_mul_ok h).1, Or.inl (handle_mul_ok h).2.1, fun _ => (handle_mul_ok h).2.1⟩
  · exact ⟨(handle_cmp_ok h).1, Or.inr (handle_cmp_ok h).2.1,
      fun hne => absurd (by assumption) hne⟩
  · exact ⟨(handle_addi_ok h).1, Or.inl (handle_addi_ok h).2.1, fun _ => (handle_addi_ok h).2.1⟩

set_option maxHeartbeats 1600000 in
/-- What a successful general-table run preserves: the flags always; the pc
whenever bit 4 of the opcode is clear (CALL, RET, JMP, JEQ, JNE — the
pc-setting handlers — all have bit 4 set). -/
theorem branch_ok_props {ir a b : Int} {hnd : Handler} {s t : CPUState}
    (htab : branchtable ir = some hnd) (h : hnd a b s = .ok t) :
    t.fl = s.fl ∧ (pyAnd1 (pyShr ir 4) = 0 → t.pc = s.pc) := by
  unfold branchtable at htab
  split_ifs at htab
  all_goals (injection htab with htab; subst htab)
  · exact absurd h handle_hlt_ok
  · exact ⟨(handle_ldi_ok h).2.1, fun _ => (handle_ldi_ok h).1⟩
  · exact ⟨(handle_prn_ok h) ▸ rfl, fun _ => (handle_prn_ok h) ▸ rfl⟩
  · exact ⟨(handle_push_ok h).2, fun _ => (handle_push_ok h).1⟩
  · exact ⟨(handle_pop_ok h).2.1, fun _ => (handle_pop_ok h).1⟩
  · exact ⟨handle_call_ok h, fun h4 => absurd h4 (by subst_vars; decide)⟩
  · exact ⟨(handle_ret_ok h).1, fun h4 => absurd h4 (by subst_vars; decide)⟩
  · exact ⟨(handle_st_ok h).2.1, fun _ => (handle_st_ok h).1⟩
  · exact ⟨(handle_jmp_ok h).1, fun h4 => absurd h4 (by subst_vars; decide)⟩
  · exact ⟨(handle_jeq_ok h).1, fun h4 => absurd h4 (by subst_vars; decide)⟩
  · exact ⟨(handle_jne_ok h).1, fun h4 => absurd h4 (by subst_vars; decide)⟩

/-- Inversion of a successful dispatch: which table was consulted. -/
theorem dispatch_inv {ir a b : Int} {s s1 : CPUState}
    (hdisp : dispatch ir a b s = .ok s1) :
    (pyAnd1 (pyShr ir 5) = 1 ∧ alu ir a b s = .ok s1) ∨
    (pyAnd1 (pyShr ir 5) ≠ 1 ∧ ∃ hnd, branchtable ir = some hnd ∧ hnd a b s = .ok s1) := by
  unfold dispatch at hdisp
  by_cases h5 : pyAnd1 (pyShr ir 5) = 1
  · rw [if_pos h5] at hdisp
    exact Or.inl ⟨h5, hdisp⟩
  · rw [if_neg h5] at hdisp
    refine Or.inr ⟨h5, ?_⟩
    cases htab : branchtable ir with
    | none => rw [htab] at hdisp; cases hdisp
    | some hnd => rw [htab] at hdisp; exact ⟨hnd, rfl, hdisp⟩

/-- Inversion of the pc-advance phase. -/
theorem advance_inv {ir : Int} {s1 s' : CPUState} (hadv : advance ir s1 = .ok s') :
    (pyAnd1 (pyShr ir 4) = 0 ∧ s' = { s1 with pc := s1.pc + (pyShr ir 6 + 1) }) ∨
    (pyAnd1 (pyShr ir 4) ≠ 0 ∧ s' = s1) := by
  unfold advance at hadv
  by_cases h4 : pyAnd1 (pyShr ir 4) = 0
  · rw [if_pos h4] at hadv
    injection hadv with hadv
    exact Or.inl ⟨h4, hadv.symm⟩
  · rw [if_neg h4] at hadv
    injection hadv with hadv
    exact Or.inr ⟨h4, hadv.symm⟩

/-- Full inversion of one successful dispatch-loop iteration. -/
theorem step_inv {s s' : CPUState} (hstep : step s = .ok s') :
    ∃ ir a b s1,
      ram_read s s.pc = .ok ir ∧
      ram_read s (s.pc + 1) = .ok a ∧
      ram_read s (s.pc + 2) = .ok b ∧
      ((pyAnd1 (pyShr ir 5) = 1 ∧ alu ir a b s = .ok s1) ∨
       (pyAnd1 (pyShr ir 5) ≠ 1 ∧ ∃ hnd, branchtable ir = some hnd ∧ hnd a b s = .ok s1)) ∧
      ((pyAnd1 (pyShr ir 4) = 0 ∧ s' = { s1 with pc := s1.pc + (pyShr ir 6 + 1) }) ∨
       (pyAnd1 (pyShr ir 4) ≠ 0 ∧ s' = s1)) := by
  unfold step at hstep
  simp only [bindOk] at hstep
  obtain ⟨ir, hir, a, ha, b, hb, s1, hdisp, hadv⟩ := hstep
  exact ⟨ir, a, b, s1, hir, ha, hb, dispatch_inv hdisp, advance_inv hadv⟩

/-- One step either preserves `fl` or leaves it at 1, 2 or 4. -/
theorem step_fl {s s' : CPUState} (hstep : step s = .ok s') :
    s'.fl = s.fl ∨ s'.fl = 1 ∨ s'.fl = 2 ∨ s'.fl = 4 := by
  obtain ⟨ir, a, b, s1, -, -, -, hdisp, hadv⟩ := step_inv hstep
  have hfl1 : s1.fl = s.fl ∨ s1.fl = 1 ∨ s1.fl = 2 ∨ s1.fl = 4 := by
    rcases hdisp with ⟨-, halu⟩ | ⟨-, hnd, htab, hh⟩
    · exact (alu_ok_props halu).2.1
    · exact Or.inl (branch_ok_props htab hh).1
  rcases hadv with ⟨-, rfl⟩ | ⟨-, rfl⟩ <;> exact hfl1

/-- Iterating `step` keeps `fl` inside `{0, 1, 2, 4}`. -/
theorem run_fl {n : Nat} {s s' : CPUState}
    (hfl : s.fl = 0 ∨ s.fl = 1 ∨ s.fl = 2 ∨ s.fl = 4)
    (hrun : run n s = .ok s') :
    s'.fl = 0 ∨ s'.fl = 1 ∨ s'.fl = 2 ∨ s'.fl = 4 := by
  induction n generalizing s with
  | zero =>
    unfold run at hrun
    injection hrun with h
    subst h
    exact hfl
  | succ n ih =>
    unfold run at hrun
    simp only [bindOk] at hrun
    obtain ⟨s1, hstep, hrun⟩ := hrun
    have h1 : s1.fl = 0 ∨ s1.fl = 1 ∨ s1.fl = 2 ∨ s1.fl = 4 := by
      rcases step_fl hstep with heq | h | h | h
      · rw [heq]; exact hfl
      · exact Or.inr (Or.inl h)
      · exact Or.inr (Or.inr (Or.inl h))
      · exact Or.inr (Or.inr (Or.inr h))
    exact ih h1 hrun

/-! ## Claims -/

/-- C1: for every executed instruction whose opcode has bit 4 clear, the
dispatch loop advances the pc by exactly `operand_count + 1`, where
`operand_count` is bits 6-7 of the opcode byte (`ir >> 6`); and the
instruction is routed to the ALU handler table if and only if bit 5 of the
opcode is set. -/
theorem step_pc_advance_and_routing
    (s s' : CPUState) (ir a b : Int)
    (hir : ram_read s s.pc = .ok ir)
    (ha : ram_read s (s.pc + 1) = .ok a)
    (hb : ram_read s (s.pc + 2) = .ok b)
    (h4 : pyAnd1 (pyShr ir 4) = 0)
    (hstep : step s = .ok s') :
    s'.pc = s.pc + (pyShr ir 6 + 1) ∧
    (pyAnd1 (pyShr ir 5) = 1 →
      ∃ t, alu ir a b s = .ok t ∧ s' = { t with pc := t.pc + (pyShr ir 6 + 1) }) ∧
    (pyAnd1 (pyShr ir 5) ≠ 1 →
      ∃ hnd t, branchtable ir = some hnd ∧ hnd a b s = .ok t ∧
        s' = { t with pc := t.pc + (pyShr ir 6 + 1) }) := by
  obtain ⟨ir0, a0, b0, s1, hir0, ha0, hb0, hdisp, hadv⟩ := step_inv hstep
  rw [hir] at hir0
  injection hir0 with hir0
  rw [ha] at ha0
  injection ha0 with ha0
  rw [hb] at hb0
  injection hb0 with hb0
  subst hir0
  subst ha0
  subst hb0
  rcases hadv with ⟨-, rfl⟩ | ⟨h4', -⟩
  · have hpc : s1.pc = s.pc := by
      rcases hdisp with ⟨-, halu⟩ | ⟨-, hnd, htab, hh⟩
      · exact (alu_ok_props halu).1
      · exact (branch_ok_props htab hh).2 h4
    refine ⟨by simp [hpc], ?_, ?_⟩
    · intro h5
      rcases hdisp with ⟨-, halu⟩ | ⟨hne, -⟩
      · exact ⟨s1, halu, rfl⟩
      · exact absurd h5 hne
    · intro h5
      rcases hdisp with ⟨h5', -⟩ | ⟨-, hnd, htab, hh⟩
      · exact absurd h5' h5
      · exact ⟨hnd, s1, htab, hh, rfl⟩
  · exact absurd h4 h4'

/-- Witness for C1: the first LDI of the demo program has bit 4 clear and two
operands, so the pc advances from 0 to 3. -/
theorem step_pc_advance_and_routing_witness :
    demoAfter1.pc = demoState.pc + (pyShr 130 6 + 1) :=
  (step_pc_advance_and_routing demoState demoAfter1 130 0 8
    (by decide) (by decide) (by decide) (by decide) (by decide)).1

/-- Counterexample to C2 as stated: ADD on two registers holding 200 stores
400 — not 400 mod 256 = 144 — so a value outside 0..255 is stored. -/
theorem alu_mask_counterexample :
    handle_add 0 1 addState = .ok addResult ∧
    pyGet addResult.reg 0 = some 400 ∧
    ¬((400 : Int) ≤ 255) ∧ (400 : Int) % 256 = 144 := by
  refine ⟨by decide, by decide, by decide, by decide⟩

/-- C2 (amended): ADD, SUB, MUL and ADDI store the exact unbounded integer
result in the destination register, with no reduction modulo 2^8 and no
trap; results may leave 0..255 (and SUB may go negative). -/
theorem alu_arith_exact (a b : Int) (s : CPUState) (va vb : Int)
    (hva : pyGet s.reg a = some va) (hvb : pyGet s.reg b = some vb) :
    (∃ t, handle_add a b s = .ok t ∧ pyGet t.reg a = some (va + vb)) ∧
    (∃ t, handle_sub a b s = .ok t ∧ pyGet t.reg a = some (va - vb)) ∧
    (∃ t, handle_mul a b s = .ok t ∧ pyGet t.reg a = some (va * vb)) ∧
    (∃ t, handle_addi a b s = .ok t ∧ pyGet t.reg a = some (va + b)) := by
  refine ⟨?_, ?_, ?_, ?_⟩
  · obtain ⟨l2, hset, hget, -⟩ := pySet_of_pyGet (va + vb) hva
    refine ⟨{ s with reg := l2 }, ?_, hget⟩
    unfold handle_add getE setE
    rw [hva, hvb]
    simp [bind, Except.bind, hset]
  · obtain ⟨l2, hset, hget, -⟩ := pySet_of_pyGet (va - vb) hva
    refine ⟨{ s with reg := l2 }, ?_, hget⟩
    unfold handle_sub getE setE
    rw [hva, hvb]
    simp [bind, Except.bind, hset]
  · obtain ⟨l2, hset, hget, -⟩ := pySet_of_pyGet (va * vb) hva
    refine ⟨{ s with reg := l2 }, ?_, hget⟩
    unfold handle_mul getE setE
    rw [hva, hvb]
    simp [bind, Except.bind, hset]
  · obtain ⟨l2, hset, hget, -⟩ := pySet_of_pyGet (va + b) hva
    refine ⟨{ s with reg := l2 }, ?_, hget⟩
    unfold handle_addi getE setE
    rw [hva]
    simp [bind, Except.bind, hset]

/-- Witness for C2 (amended): 200 + 200 is stored as 400 exactly. -/
theorem alu_arith_exact_witness :
    handle_add 0 1 addState = .ok addResult ∧ pyGet addResult.reg 0 = some 400 := by
  obtain ⟨⟨t, ht, hget⟩, -, -, -⟩ :=
    alu_arith_exact 0 1 addState 200 200 (by decide) (by decide)
  have hc : handle_add 0 1 addState = .ok addResult := by decide
  rw [hc] at ht
  injection ht with ht
  subst ht
  exact ⟨hc, by simpa using hget⟩

/-- Counterexample to C3 as stated: the opcode byte 0 has bit 5 clear and no
handler in the general table, yet the VM dies with an uncaught `KeyError`
(traceback on standard error), not a printed diagnostic plus exit status 1. -/
theorem dispatch_miss_counterexample :
    step initState = .error (.exc .keyError) ∧
    isDiagExit1 (step initState) = false := by
  refine ⟨by decide, by decide⟩

/-- C3 (amended): an opcode with bit 5 set and no ALU handler makes the VM
print "Unsupported ALU operation" and exit with status 1; an opcode with
bit 5 clear and no general-table handler raises an uncaught `KeyError`. -/
theorem dispatch_miss_spec (ir a b : Int) (s : CPUState)
    (hir : ram_read s s.pc = .ok ir)
    (ha : ram_read s (s.pc + 1) = .ok a)
    (hb : ram_read s (s.pc + 2) = .ok b) :
    (pyAnd1 (pyShr ir 5) = 1 → alu_branchtable ir = none →
      step s = .error (.exit 1 (some "Unsupported ALU operation"))) ∧
    (pyAnd1 (pyShr ir 5) ≠ 1 → branchtable ir = none →
      step s = .error (.exc .keyError)) := by
  unfold step
  rw [hir, ha, hb]
  simp only [bind, Except.bind]
  constructor
  · intro h5 htab
    unfold dispatch
    rw [if_pos h5]
    unfold alu
    rw [htab]
  · intro h5 htab
    unfold dispatch
    rw [if_neg h5, htab]

/-- Witness for C3 (amended): opcode 0xA3 (bit 5 set, no ALU handler) exits 1
with the diagnostic; opcode 0 (bit 5 clear, no handler) raises `KeyError`. -/
theorem dispatch_miss_spec_witness :
    step aluMissState = .error (.exit 1 (some "Unsupported ALU operation")) ∧
    step initState = .error (.exc .keyError) :=
  ⟨(dispatch_miss_spec 0xA3 0 0 aluMissState (by decide) (by decide) (by decide)).1
      (by decide) rfl,
   (dispatch_miss_spec 0 0 0 initState (by decide) (by decide) (by decide)).2
      (by decide) rfl⟩

/-- Counterexample to C4 as stated: PUSH(7) pushes the already-decremented
stack pointer, so POP(0) afterwards leaves 243 in register 0 while register 7
originally held 244. -/
theorem push_pop_counterexample :
    (handle_push 7 0 initState >>= handle_pop 0 0) = .ok pushPop7Result ∧
    pyGet initState.reg 7 = some 244 ∧
    pyGet pushPop7Result.reg 0 = some 243 ∧
    (243 : Int) ≠ 244 := by
  refine ⟨by decide, by decide, by decide, by decide⟩

/-- C4 (amended): for register operands other than the stack-pointer register
(`r, r2` in 0..6) and SP in 1..255, PUSH(r) immediately followed by POP(r2)
yields `reg[r2] = ` the original `reg[r]`, restores SP, and changes no memory
cell except the one at address SP-1 written by the push. -/
theorem push_pop_roundtrip
    (s : CPUState) (r r2 sp v : Int)
    (hlen : s.reg.length = 8) (hram : s.ram.length = 256)
    (hr0 : 0 ≤ r) (hr6 : r ≤ 6) (hr20 : 0 ≤ r2) (hr26 : r2 ≤ 6)
    (hsp : pyGet s.reg SP = some sp) (hsp1 : 1 ≤ sp) (hsp255 : sp ≤ 255)
    (hv : pyGet s.reg r = some v) :
    ∃ t, (handle_push r 0 s >>= handle_pop r2 0) = .ok t ∧
      pyGet t.reg r2 = some v ∧
      pyGet t.reg SP = some sp ∧
      t.ram.get? (sp - 1).toNat = some v ∧
      (∀ j : Nat, j ≠ (sp - 1).toNat → t.ram.get? j = s.ram.get? j) ∧
      t.pc = s.pc ∧ t.fl = s.fl := by
  have hrt : r.toNat < 8 := by omega
  have hrt2 : r2.toNat < 8 := by omega
  have hspt : (sp - 1).toNat < 256 := by omega
  set reg1 := s.reg.set 7 (sp - 1) with hreg1
  have hlen1 : reg1.length = 8 := by simp [hreg1, hlen]
  set ram1 := s.ram.set (sp - 1).toNat v with hram1
  have hramlen1 : ram1.length = 256 := by simp [hram1, hram]
  set reg2 := reg1.set r2.toNat v with hreg2
  have hlen2 : reg2.length = 8 := by simp [hreg2, hlen1]
  set reg3 := reg2.set 7 (sp - 1 + 1) with hreg3
  have hlen3 : reg3.length = 8 := by simp [hreg3, hlen2]
  have hv' : s.reg.get? r.toNat = some v := by
    rw [pyGet_pos hr0 (by omega)] at hv
    exact hv
  have h1 : pyGet s.reg 7 = some sp := hsp
  have h2 : pySet s.reg 7 (sp - 1) = some reg1 := by
    rw [pySet_pos _ (by norm_num) (by omega)]
    rfl
  have h3 : pyGet reg1 r = some v := by
    rw [pyGet_pos hr0 (by omega), hreg1, List.get?_set_ne _ _ (by omega)]
    exact hv'
  have h4 : pyGet reg1 7 = some (sp - 1) := by
    rw [pyGet_pos (by norm_num) (by omega), hreg1]
    exact List.get?_set_eq_of_lt _ (by omega)
  have h5 : pySet s.ram (sp - 1) v = some ram1 := by
    rw [pySet_pos _ (by omega) (by omega)]
  have hpush : handle_push r 0 s = .ok { s with reg := reg1, ram := ram1 } := by
    simp only [handle_push, getE, setE, SP, h1, h2, h3, h4, h5, bind, Except.bind]
  have h6 : pyGet ram1 (sp - 1) = some v := by
    rw [pyGet_pos (by omega) (by omega), hram1]
    exact List.get?_set_eq_of_lt _ (by omega)
  have h7 : pySet reg1 r2 v = some reg2 := by
    rw [pySet_pos _ hr20 (by omega)]
  have h8 : pyGet reg2 7 = some (sp - 1) := by
    rw [pyGet_pos (by norm_num) (by omega), hreg2, List.get?_set_ne _ _ (by omega)]
    rw [pyGet_pos (by norm_num) (by omega)] at h4
    exact h4
  have h9 : pySet reg2 7 (sp - 1 + 1) = some reg3 := by
    rw [pySet_pos _ (by norm_num) (by omega)]
    rfl
  have hpop : handle_pop r2 0 { s with reg := reg1, ram := ram1 } =
      .ok { s with reg := reg3, ram := ram1 } := by
    simp only [handle_pop, getE, setE, SP, h4, h6, h7, h8, h9, bind, Except.bind]
  refine ⟨{ s with reg := reg3, ram := ram1 }, ?_, ?_, ?_, ?_, ?_, rfl, rfl⟩
  · rw [bindOk]
    exact ⟨_, hpush, hpop⟩
  · show pyGet reg3 r2 = some v
    rw [pyGet_pos hr20 (by omega), hreg3, List.get?_set_ne _ _ (by omega), hreg2]
    exact List.get?_set_eq_of_lt _ (by omega)
  · show pyGet reg3 SP = some sp
    show pyGet reg3 (7 : Int) = some sp
    rw [pyGet_pos (by norm_num) (by omega)]
    have hg : reg3.get? (7 : Int).toNat = some (sp - 1 + 1) := by
      rw [hreg3]
      exact List.get?_set_eq_of_lt _ (by omega)
    rw [hg, Int.sub_add_cancel]
  · show ram1.get? (sp - 1).toNat = some v
    rw [hram1]
    exact List.get?_set_eq_of_lt _ (by omega)
  · intro j hj
    show ram1.get? j = s.ram.get? j
    rw [hram1]
    exact List.get?_set_ne _ _ (fun hh => hj hh.symm)

/-- Witness for C4 (amended): pushing register 0 (holding 9) and popping into
register 1 from SP = 244 copies the 9 and restores SP. -/
theorem push_pop_roundtrip_witness :
    (handle_push 0 0 rtState >>= handle_pop 1 0) = .ok rtResult ∧
    pyGet rtResult.reg 1 = some 9 ∧ pyGet rtResult.reg SP = some 244 := by
  obtain ⟨t, h1, h2, h3, -, -, -, -⟩ :=
    push_pop_roundtrip rtState 0 1 244 9 (by decide) (by decide) (by decide) (by decide)
      (by decide) (by decide) (by decide) (by decide) (by decide) (by decide)
  have hc : (handle_push 0 0 rtState >>= handle_pop 1 0) = .ok rtResult := by decide
  rw [hc] at h1
  injection h1 with h1
  subst h1
  exact ⟨hc, h2, h3⟩

/-- Counterexample to C5 as stated: CALL(7) decrements the stack pointer
before reading the target register, so the pc becomes 243 although register 7
held 244 when the CALL started executing. -/
theorem call_reg7_counterexample :
    handle_call 7 0 initState = .ok call7Result ∧
    pyGet initState.reg 7 = some 244 ∧
    call7Result.pc = 243 ∧ (243 : Int) ≠ 244 := by
  refine ⟨by decide, by decide, by decide, by decide⟩

/-- C5 (amended): for a register operand other than the stack-pointer register
(`r` in 0..6), CALL(r) at address p pushes p+2 and sets the pc to `reg[r]`; a
later RET from any state whose SP equals the post-CALL SP and whose return
slot still holds p+2 (the stack being balanced) resumes at pc = p+2 and
restores SP. -/
theorem call_ret_resume
    (s : CPUState) (r tgt sp : Int)
    (hlen : s.reg.length = 8) (hram : s.ram.length = 256)
    (hr0 : 0 ≤ r) (hr6 : r ≤ 6)
    (hsp : pyGet s.reg SP = some sp) (hsp1 : 1 ≤ sp) (hsp255 : sp ≤ 255)
    (htgt : pyGet s.reg r = some tgt) :
    ∃ t, handle_call r 0 s = .ok t ∧
      t.pc = tgt ∧
      pyGet t.reg SP = some (sp - 1) ∧
      t.ram.get? (sp - 1).toNat = some (s.pc + 2) ∧
      (∀ u : CPUState, u.reg.length = 8 → u.ram.length = 256 →
        pyGet u.reg SP = some (sp - 1) →
        u.ram.get? (sp - 1).toNat = some (s.pc + 2) →
        ∃ w, handle_ret 0 0 u = .ok w ∧ w.pc = s.pc + 2 ∧ pyGet w.reg SP = some sp) := by
  have hrt : r.toNat < 8 := by omega
  have hspt : (sp - 1).toNat < 256 := by omega
  set reg1 := s.reg.set 7 (sp - 1) with hreg1
  have hlen1 : reg1.length = 8 := by simp [hreg1, hlen]
  set ram1 := s.ram.set (sp - 1).toNat (s.pc + 2) with hram1
  have htgt' : s.reg.get? r.toNat = some tgt := by
    rw [pyGet_pos hr0 (by omega)] at htgt
    exact htgt
  have h1 : pyGet s.reg 7 = some sp := hsp
  have h2 : pySet s.reg 7 (sp - 1) = some reg1 := by
    rw [pySet_pos _ (by norm_num) (by omega)]
    rfl
  have h4 : pyGet reg1 7 = some (sp - 1) := by
    rw [pyGet_pos (by norm_num) (by omega), hreg1]
    exact List.get?_set_eq_of_lt _ (by omega)
  have h5 : pySet s.ram (sp - 1) (s.pc + 2) = some ram1 := by
    rw [pySet_pos _ (by omega) (by omega)]
  have h3 : pyGet reg1 r = some tgt := by
    rw [pyGet_pos hr0 (by omega), hreg1, List.get?_set_ne _ _ (by omega)]
    exact htgt'
  have hcall : handle_call r 0 s = .ok { s with reg := reg1, ram := ram1, pc := tgt } := by
    simp only [handle_call, getE, setE, SP, h1, h2, h3, h4, h5, bind, Except.bind]
  refine ⟨{ s with reg := reg1, ram := ram1, pc := tgt }, hcall, rfl, ?_, ?_, ?_⟩
  · show pyGet reg1 SP = some (sp - 1)
    exact h4
  · show ram1.get? (sp - 1).toNat = some (s.pc + 2)
    rw [hram1]
    exact List.get?_set_eq_of_lt _ (by omega)
  · intro u hulen huram husp huslot
    have husp7 : pyGet u.reg 7 = some (sp - 1) := husp
    set ureg := u.reg.set 7 (sp - 1 + 1) with hureg
    have hu1 : pyGet u.ram (sp - 1) = some (s.pc + 2) := by
      rw [pyGet_pos (by omega) (by omega)]
      exact huslot
    have hu2 : pySet u.reg 7 (sp - 1 + 1) = some ureg := by
      rw [pySet_pos _ (by norm_num) (by omega)]
      rfl
    have hret : handle_ret 0 0 u = .ok { u with reg := ureg, pc := s.pc + 2 } := by
      simp only [handle_ret, getE, setE, SP, husp7, hu1, hu2, bind, Except.bind]
    refine ⟨{ u with reg := ureg, pc := s.pc + 2 }, hret, rfl, ?_⟩
    show pyGet ureg SP = some sp
    show pyGet ureg (7 : Int) = some sp
    rw [pyGet_pos (by norm_num) (by simp [hureg, hulen])]
    have hg : ureg.get? (7 : Int).toNat = some (sp - 1 + 1) := by
      rw [hureg]
      exact List.get?_set_eq_of_lt _ (by omega)
    rw [hg, Int.sub_add_cancel]

/-- Witness for C5 (amended): CALL R3 at pc 10 jumps to 9 and pushes 12;
RET then resumes at 12 with SP restored to 244. -/
theorem call_ret_resume_witness :
    handle_call 3 0 callState = .ok callResult ∧
    callResult.pc = 9 ∧
    handle_ret 0 0 callResult = .ok retResult ∧
    retResult.pc = callState.pc + 2 := by
  obtain ⟨t, hcall, hpc, hspr, hslot, hret⟩ :=
    call_ret_resume callState 3 9 244 (by decide) (by decide) (by decide) (by decide)
      (by decide) (by decide) (by decide) (by decide)
  have hc : handle_call 3 0 callState = .ok callResult := by decide
  rw [hc] at hcall
  injection hcall with hcall
  subst hcall
  obtain ⟨w, hw, hwpc, -⟩ :=
    hret callResult (by decide) (by decide) (by decide) (by decide)
  have hr : handle_ret 0 0 callResult = .ok retResult := by decide
  rw [hr] at hw
  injection hw with hw
  subst hw
  exact ⟨hc, by decide, hr, by rw [hwpc]⟩


/-- C6: CMP sets exactly one of the three flag bits — Equal (bit 0),
Greater-Than (bit 1), Less-Than (bit 2) — clearing the others, and CMP on two
equal values (in particular CMP(a,a)) always sets Equal. -/
theorem cmp_sets_exactly_one_flag (a b : Int) (s : CPUState) :
    (∀ t, handle_cmp a b s = .ok t →
      (t.fl = 1 ∨ t.fl = 2 ∨ t.fl = 4) ∧
      pyAnd1 t.fl + pyAnd1 (pyShr t.fl 1) + pyAnd1 (pyShr t.fl 2) = 1) ∧
    (∀ va vb t, pyGet s.reg a = some va → pyGet s.reg b = some vb → va = vb →
      handle_cmp a b s = .ok t → t.fl = 1) ∧
    (∀ u, handle_cmp a a s = .ok u → u.fl = 1) := by
  refine ⟨?_, ?_, ?_⟩
  · intro t h
    have hc := (handle_cmp_ok h).2.1
    refine ⟨hc, ?_⟩
    rcases hc with h1 | h1 | h1 <;> rw [h1] <;> decide
  · intro va vb t hva hvb heq h
    subst heq
    unfold handle_cmp getE at h
    rw [hva, hvb] at h
    simp only [bind, Except.bind, if_true] at h
    injection h with h
    subst h
    rfl
  · intro u h
    unfold handle_cmp getE at h
    cases hva : pyGet s.reg a with
    | none =>
      rw [hva] at h
      simp [bind, Except.bind] at h
    | some va =>
      rw [hva] at h
      simp only [bind, Except.bind, if_true] at h
      injection h with h
      subst h
      rfl

/-- Witness for C6: CMP R0,R1 with 3 < 5 sets exactly the Less-Than bit;
CMP R0,R0 sets Equal. -/
theorem cmp_sets_exactly_one_flag_witness :
    ((cmpLtResult.fl = 1 ∨ cmpLtResult.fl = 2 ∨ cmpLtResult.fl = 4) ∧
      pyAnd1 cmpLtResult.fl + pyAnd1 (pyShr cmpLtResult.fl 1) +
        pyAnd1 (pyShr cmpLtResult.fl 2) = 1) ∧
    cmpEqResult.fl = 1 :=
  ⟨(cmp_sets_exactly_one_flag 0 1 cmpState).1 cmpLtResult (by decide),
   (cmp_sets_exactly_one_flag 0 1 cmpState).2.2 cmpEqResult (by decide)⟩

/-- C7: JEQ sets the pc to the register target iff bit 0 of FL is set, JNE
iff it is clear; the not-taken branch advances the pc by exactly 2, and the
dispatch loop adds nothing afterwards because bit 4 of both opcodes is set. -/
theorem jeq_jne_taken_iff (s : CPUState) (a b tgt : Int)
    (hreg : pyGet s.reg a = some tgt) :
    (∀ s', ram_read s s.pc = .ok JEQ → ram_read s (s.pc + 1) = .ok a →
      ram_read s (s.pc + 2) = .ok b → step s = .ok s' →
      s'.pc = (if pyAnd1 s.fl = 1 then tgt else s.pc + 2) ∧
      s'.ram = s.ram ∧ s'.reg = s.reg ∧ s'.fl = s.fl) ∧
    (∀ s', ram_read s s.pc = .ok JNE → ram_read s (s.pc + 1) = .ok a →
      ram_read s (s.pc + 2) = .ok b → step s = .ok s' →
      s'.pc = (if pyAnd1 s.fl = 0 then tgt else s.pc + 2) ∧
      s'.ram = s.ram ∧ s'.reg = s.reg ∧ s'.fl = s.fl) ∧
    pyAnd1 (pyShr JEQ 4) = 1 ∧ pyAnd1 (pyShr JNE 4) = 1 := by
  refine ⟨?_, ?_, by decide, by decide⟩
  · intro s' hir ha hb hstep
    obtain ⟨ir0, a0, b0, s1, hir0, ha0, hb0, hdisp, hadv⟩ := step_inv hstep
    rw [hir] at hir0
    injection hir0 with hir0
    rw [ha] at ha0
    injection ha0 with ha0
    subst hir0
    subst ha0
    rcases hdisp with ⟨h5, -⟩ | ⟨-, hnd, htab, hh⟩
    · exact absurd h5 (by decide)
    · have htabv : branchtable JEQ = some handle_jeq := rfl
      rw [htabv] at htab
      injection htab with htab
      subst htab
      rcases hadv with ⟨h4, -⟩ | ⟨-, rfl⟩
      · exact absurd h4 (by decide)
      · unfold handle_jeq at hh
        by_cases hfl : pyAnd1 s.fl = 1
        · rw [if_pos hfl] at hh
          unfold handle_jmp getE at hh
          rw [hreg] at hh
          simp only [bind, Except.bind] at hh
          injection hh with hh
          subst hh
          exact ⟨by rw [if_pos hfl], rfl, rfl, rfl⟩
        · rw [if_neg hfl] at hh
          injection hh with hh
          subst hh
          exact ⟨by rw [if_neg hfl], rfl, rfl, rfl⟩
  · intro s' hir ha hb hstep
    obtain ⟨ir0, a0, b0, s1, hir0, ha0, hb0, hdisp, hadv⟩ := step_inv hstep
    rw [hir] at hir0
    injection hir0 with hir0
    rw [ha] at ha0
    injection ha0 with ha0
    subst hir0
    subst ha0
    rcases hdisp with ⟨h5, -⟩ | ⟨-, hnd, htab, hh⟩
    · exact absurd h5 (by decide)
    · have htabv : branchtable JNE = some handle_jne := rfl
      rw [htabv] at htab
      injection htab with htab
      subst htab
      rcases hadv with ⟨h4, -⟩ | ⟨-, rfl⟩
      · exact absurd h4 (by decide)
      · unfold handle_jne at hh
        by_cases hfl : pyAnd1 s.fl = 0
        · rw [if_pos hfl] at hh
          unfold handle_jmp getE at hh
          rw [hreg] at hh
          simp only [bind, Except.bind] at hh
          injection hh with hh
          subst hh
          exact ⟨by rw [if_pos hfl], rfl, rfl, rfl⟩
        · rw [if_neg hfl] at hh
          injection hh with hh
          subst hh
          exact ⟨by rw [if_neg hfl], rfl, rfl, rfl⟩

/-- Witness for C7: with FL = 0 the JEQ at address 0 falls through to pc 2,
and the JNE jumps to the target 30 held in register 2. -/
theorem jeq_jne_taken_iff_witness :
    (({ jeqState with pc := 2 } : CPUState).pc =
      (if pyAnd1 jeqState.fl = 1 then 30 else jeqState.pc + 2)) ∧
    (({ jneState with pc := 30 } : CPUState).pc =
      (if pyAnd1 jneState.fl = 0 then 30 else jneState.pc + 2)) := by
  constructor
  · exact ((jeq_jne_taken_iff jeqState 2 0 30 (by decide)).1
      { jeqState with pc := 2 } (by decide) (by decide) (by decide) (by decide)).1
  · exact ((jeq_jne_taken_iff jneState 2 0 30 (by decide)).2.1
      { jneState with pc := 30 } (by decide) (by decide) (by decide) (by decide)).1

/-- Counterexample to C8 as stated: PUSH with SP = 0 is not a fatal error —
it succeeds, drives SP to -1 (outside 0..255) and, through Python's negative
indexing, writes the pushed value into memory cell 255. -/
theorem sp_underflow_counterexample :
    handle_push 0 0 spZeroState = .ok spZeroResult ∧
    isError (handle_push 0 0 spZeroState) = false ∧
    pyGet spZeroResult.reg 7 = some (-1) ∧
    ¬((0 : Int) ≤ -1) ∧
    spZeroResult.ram.get? 255 = some 5 := by
  refine ⟨by decide, by decide, by decide, by decide, by decide⟩

/-- C8 (amended): the stack operations perform no SP bounds check. PUSH at
SP = 0 succeeds, leaves SP = -1 and writes cell 255 via Python's negative
indexing; POP with SP = 256 (one past the top of memory) dies with an
uncaught `IndexError`, not a printed diagnostic. -/
theorem sp_unchecked (s : CPUState) (r v : Int)
    (hlen : s.reg.length = 8) (hram : s.ram.length = 256)
    (hr0 : 0 ≤ r) (hr6 : r ≤ 6)
    (hsp : pyGet s.reg SP = some 0)
    (hv : pyGet s.reg r = some v) :
    (∃ t, handle_push r 0 s = .ok t ∧ pyGet t.reg SP = some (-1) ∧
      t.ram.get? 255 = some v) ∧
    (∀ s2 : CPUState, pyGet s2.reg SP = some 256 → s2.ram.length = 256 →
      handle_pop r 0 s2 = .error (.exc .indexError)) := by
  have hrt : r.toNat < 8 := by omega
  constructor
  · set reg1 := s.reg.set 7 ((0 : Int) - 1) with hreg1
    have hlen1 : reg1.length = 8 := by simp [hreg1, hlen]
    set ram1 := s.ram.set (((0 : Int) - 1) + s.ram.length).toNat v with hram1
    have h1 : pyGet s.reg 7 = some 0 := hsp
    have h2 : pySet s.reg 7 ((0 : Int) - 1) = some reg1 := by
      rw [pySet_pos _ (by norm_num) (by omega)]
      rfl
    have hv' : s.reg.get? r.toNat = some v := by
      rw [pyGet_pos hr0 (by omega)] at hv
      exact hv
    have h3 : pyGet reg1 r = some v := by
      rw [pyGet_pos hr0 (by omega), hreg1, List.get?_set_ne _ _ (by omega)]
      exact hv'
    have h4 : pyGet reg1 7 = some ((0 : Int) - 1) := by
      rw [pyGet_pos (by norm_num) (by omega), hreg1]
      exact List.get?_set_eq_of_lt _ (by omega)
    have h5 : pySet s.ram ((0 : Int) - 1) v = some ram1 := by
      rw [pySet_neg _ (by norm_num) (by omega)]
    have hpush : handle_push r 0 s = .ok { s with reg := reg1, ram := ram1 } := by
      simp only [handle_push, getE, setE, SP, h1, h2, h3, h4, h5, bind, Except.bind]
    refine ⟨{ s with reg := reg1, ram := ram1 }, hpush, ?_, ?_⟩
    · show pyGet reg1 SP = some (-1)
      show pyGet reg1 (7 : Int) = some (-1)
      rw [pyGet_pos (by norm_num) (by omega)]
      have hg : reg1.get? (7 : Int).toNat = some ((0 : Int) - 1) := by
        rw [hreg1]
        exact List.get?_set_eq_of_lt _ (by omega)
      rw [hg]
      norm_num
    · show ram1.get? 255 = some v
      rw [hram1]
      have hX : (((0 : Int) - 1) + (s.ram.length : Int)).toNat = 255 := by omega
      rw [hX]
      exact List.get?_set_eq_of_lt _ (by omega)
  · intro s2 hs2 hlen2
    have hs27 : pyGet s2.reg 7 = some 256 := hs2
    have hnone : pyGet s2.ram 256 = none := by
      unfold pyGet
      rw [if_pos (by norm_num), if_neg (by omega)]
    simp only [handle_pop, getE, setE, SP, hs27, hnone, bind, Except.bind]

/-- Witness for C8 (amended): the concrete push at SP = 0 and the concrete
pop at SP = 256. -/
theorem sp_unchecked_witness :
    handle_push 0 0 spZeroState = .ok spZeroResult ∧
    pyGet spZeroResult.reg SP = some (-1) ∧
    handle_pop 0 0 spOverState = .error (.exc .indexError) := by
  obtain ⟨⟨t, hp, hspr, hramr⟩, hpop⟩ :=
    sp_unchecked spZeroState 0 5 (by decide) (by decide) (by decide) (by decide)
      (by decide) (by decide)
  have hc : handle_push 0 0 spZeroState = .ok spZeroResult := by decide
  rw [hc] at hp
  injection hp with hp
  subst hp
  exact ⟨hc, hspr, hpop spOverState (by decide) (by decide)⟩

/-- Counterexample to C9 as stated: the 4-character line `1010` parses fine
under `int(_, 2)` — the loader accepts it as the value 10 and starts the
program; no diagnostic, no exit. -/
theorem load_1010_counterexample :
    load ["1010".toList] initState = .ok loaded1010 ∧
    isError (load ["1010".toList] initState) = false := by
  refine ⟨by decide, by decide⟩

/-- C9 (amended): the loader rejects a line only when its first token fails
to parse as a binary literal of *any* length (e.g. it has a non-binary
character); then it prints `Invalid Instruction:` naming the token and exits
with status 1. Length is never checked, so `1010` loads as 10. -/
theorem load_invalid_token (line : List Char) (more : List (List Char)) (s : CPUState)
    (tok : List Char) (ts : List (List Char))
    (hsplit : pySplit line = tok :: ts)
    (hhash : tok.head? ≠ some '#')
    (hbad : intBase2? tok = none) :
    load (line :: more) s =
      .error (.exit 1 (some ("Invalid Instruction: " ++ String.mk tok))) := by
  unfold load loadLines
  rw [hsplit]
  simp only [bind, Except.bind]
  rw [if_neg hhash, hbad]

/-- Witness for C9 (amended): the line `10a0` contains a non-binary character
and is rejected with the diagnostic naming it. -/
theorem load_invalid_token_witness :
    load ["10a0".toList] initState =
      .error (.exit 1 (some ("Invalid Instruction: " ++ String.mk "10a0".toList))) :=
  load_invalid_token "10a0".toList [] initState "10a0".toList []
    (by decide) (by decide) (by decide)

/-- C10: FL starts at 0 and is only ever 0, 1, 2 or 4; only CMP writes it
(any step whose fetched opcode is not CMP preserves it); and while FL is
still 0 — in particular before the first CMP — JEQ is never taken (pc
advances by 2) and JNE is always taken (pc becomes the register target). -/
theorem fl_written_only_by_cmp (s : CPUState) :
    initState.fl = 0 ∧
    (∀ n s', (s.fl = 0 ∨ s.fl = 1 ∨ s.fl = 2 ∨ s.fl = 4) → run n s = .ok s' →
      (s'.fl = 0 ∨ s'.fl = 1 ∨ s'.fl = 2 ∨ s'.fl = 4)) ∧
    (∀ s' ir, ram_read s s.pc = .ok ir → ir ≠ CMP → step s = .ok s' → s'.fl = s.fl) ∧
    (∀ s', s.fl = 0 → ram_read s s.pc = .ok JEQ → step s = .ok s' →
      s'.pc = s.pc + 2) ∧
    (∀ s' a tgt, s.fl = 0 → ram_read s s.pc = .ok JNE → ram_read s (s.pc + 1) = .ok a →
      pyGet s.reg a = some tgt → step s = .ok s' → s'.pc = tgt) := by
  refine ⟨rfl, ?_, ?_, ?_, ?_⟩
  · intro n s' hfl hrun
    exact run_fl hfl hrun
  · intro s' ir hir hne hstep
    obtain ⟨ir0, a0, b0, s1, hir0, -, -, hdisp, hadv⟩ := step_inv hstep
    rw [hir] at hir0
    injection hir0 with hir0
    subst hir0
    have h1 : s1.fl = s.fl := by
      rcases hdisp with ⟨-, halu⟩ | ⟨-, hnd, htab, hh⟩
      · exact (alu_ok_props halu).2.2 hne
      · exact (branch_ok_props htab hh).1
    rcases hadv with ⟨-, rfl⟩ | ⟨-, rfl⟩ <;> exact h1
  · intro s' hfl hir hstep
    obtain ⟨ir0, a0, b0, s1, hir0, -, -, hdisp, hadv⟩ := step_inv hstep
    rw [hir] at hir0
    injection hir0 with hir0
    subst hir0
    rcases hdisp with ⟨h5, -⟩ | ⟨-, hnd, htab, hh⟩
    · exact absurd h5 (by decide)
    · have htabv : branchtable JEQ = some handle_jeq := rfl
      rw [htabv] at htab
      injection htab with htab
      subst htab
      unfold handle_jeq at hh
      rw [hfl] at hh
      rw [if_neg (by decide)] at hh
      injection hh with hh
      rcases hadv with ⟨h4, -⟩ | ⟨-, rfl⟩
      · exact absurd h4 (by decide)
      · subst hh
        rfl
  · intro s' a tgt hfl hir ha hreg hstep
    obtain ⟨ir0, a0, b0, s1, hir0, ha0, -, hdisp, hadv⟩ := step_inv hstep
    rw [hir] at hir0
    injection hir0 with hir0
    subst hir0
    rw [ha] at ha0
    injection ha0 with ha0
    subst ha0
    rcases hdisp with ⟨h5, -⟩ | ⟨-, hnd, htab, hh⟩
    · exact absurd h5 (by decide)
    · have htabv : branchtable JNE = some handle_jne := rfl
      rw [htabv] at htab
      injection htab with htab
      subst htab
      unfold handle_jne at hh
      rw [hfl] at hh
      rw [if_pos (by decide)] at hh
      unfold handle_jmp getE at hh
      rw [hreg] at hh
      simp only [bind, Except.bind] at hh
      injection hh with hh
      rcases hadv with ⟨h4, -⟩ | ⟨-, rfl⟩
      · exact absurd h4 (by decide)
      · subst hh
        rfl

/-- Witness for C10: four demo steps keep FL in the invariant set, the LDI
step preserves FL, and the JEQ at FL = 0 falls through. -/
theorem fl_written_only_by_cmp_witness :
    (demoAfter4.fl = 0 ∨ demoAfter4.fl = 1 ∨ demoAfter4.fl = 2 ∨ demoAfter4.fl = 4) ∧
    demoAfter1.fl = demoState.fl ∧
    ({ jeqState with pc := 2 } : CPUState).pc = jeqState.pc + 2 := by
  refine ⟨?_, ?_, ?_⟩
  · exact (fl_written_only_by_cmp demoState).2.1 4 demoAfter4 (by decide) (by decide)
  · exact (fl_written_only_by_cmp demoState).2.2.1 demoAfter1 130
      (by decide) (by decide) (by decide)
  · exact (fl_written_only_by_cmp jeqState).2.2.2.1 { jeqState with pc := 2 }
      (by decide) (by decide) (by decide)

end LS8
